import Mathlib

/-!
Verification of the 2D-creature genetic-algorithm simulation.

This file shallowly embeds the program's data model and operations
(`config.py`, `evolution.py`, `creature.py`) and proves properties of them.

Modelling conventions:
* Python floats are modelled as exact rationals `ℚ` (exact real arithmetic);
  the diversity metric, which takes a square root, is modelled over `ℝ`.
* `math.cos`, `math.pi` are modelled as an abstract function `cosF : ℚ → ℚ`
  and an abstract constant `piV : ℚ`: no claim depends on their values.
* Calls to the random library are modelled by passing the drawn values in
  explicitly (decision draws, Gaussian draws, sampled index lists, picks);
  theorems quantify over all possible draws.
* Python's stable `sorted(..., key=fitness, reverse=True)` is modelled by a
  stable descending insertion sort `sortDesc`, and its defining properties
  (permutation, descending keys, stability on equal keys) are proved.
-/

namespace Walker

/-! ### Configuration constants (config.py, QUADRUPED profile) -/

def GENES_PER_MOTOR : ℕ := 3
def MOTOR_COUNT : ℕ := 8
def GENE_COUNT : ℕ := GENES_PER_MOTOR * MOTOR_COUNT

def AMPLITUDE_MIN : ℚ := 3/10
def AMPLITUDE_MAX : ℚ := 1
def FREQUENCY_MIN : ℚ := 1/2
def FREQUENCY_MAX : ℚ := 5/2
def PHASE_MIN : ℚ := 0
def PHASE_MAX : ℚ := 628318/100000

def CROSSOVER_RATE : ℚ := 4/5
def SELECTION_METHOD : String := "tournament"
def TOURNAMENT_SIZE : ℕ := 3

def SIMULATION_TIME : ℚ := 15
def TORSO_WIDTH : ℚ := 100
def TORSO_HEIGHT : ℚ := 20
def QUADRUPED_LEG_X_OFFSET : ℚ := 8

def UPRIGHT_HEIGHT_THRESHOLD : ℚ := 50
def UPRIGHT_ANGLE_THRESHOLD : ℚ := 35/100

def FITNESS_DISTANCE_WEIGHT : ℚ := 5
def FITNESS_UPRIGHT_WEIGHT : ℚ := 1/10
def FITNESS_STEP_REWARD : ℚ := 50
def STEP_MIN_LEG_DELTA : ℚ := 15
def FITNESS_FALL_PENALTY : ℚ := 200
def FITNESS_ENERGY_PENALTY : ℚ := 1/100

def SHARED_FREQUENCY_DEFAULT : Bool := true

def TORSO_TOUCH_GROUND_DEATH : Bool := true
def TORSO_ANGLE_DEATH_THRESHOLD : ℚ := 9/10
def TORSO_HEIGHT_DEATH_THRESHOLD : ℚ := 40

def REFLEX_ENABLED : Bool := true
def REFLEX_BALANCE_GAIN : ℚ := 1
def REFLEX_BALANCE_THRESHOLD : ℚ := 15/100
def REFLEX_VELOCITY_GAIN : ℚ := 1/2

/-- Creature type configured in `config.py` (`CREATURE_TYPE = 'QUADRUPED'`). -/
def CREATURE_TYPE : String := "QUADRUPED"

/-- A genome: a flat ordered list of gene values. -/
abbrev Genome := List ℚ

/-! ### evolution.py: mutation -/

/-- Python's float `%` operator for a positive modulus:
`x % m = x - m * floor (x / m)`, the representative in `[0, m)`. -/
def pymod (x m : ℚ) : ℚ := x - m * ⌊x / m⌋

/-- `GeneticAlgorithm._mutate` (evolution.py).  Randomness is passed in
explicitly: `rand i` is the `random.random()` draw deciding whether gene `i`
mutates, and `gauss i` is a standard-normal draw; `random.gauss(0, σ)` is
modelled as `σ * gauss i` (same support, any rational value possible). -/
def mutate (rate strength : ℚ) (genes : Genome) (rand gauss : ℕ → ℚ) : Genome :=
  (List.range genes.length).map (fun i =>
    let g := genes.getD i 0
    if rand i < rate then
      if i % GENES_PER_MOTOR = 0 then
        max AMPLITUDE_MIN (min AMPLITUDE_MAX
          (g + strength * (AMPLITUDE_MAX - AMPLITUDE_MIN) * gauss i))
      else if i % GENES_PER_MOTOR = 1 then
        max FREQUENCY_MIN (min FREQUENCY_MAX
          (g + strength * (FREQUENCY_MAX - FREQUENCY_MIN) * gauss i))
      else
        pymod (g + strength * (PHASE_MAX - PHASE_MIN) * gauss i) PHASE_MAX
    else g)

/-! ### evolution.py: crossover -/

/-- `GeneticAlgorithm._crossover` (evolution.py).  `k` is the
`random.randint(1, MOTOR_COUNT - 1)` draw; the cut point is
`k * GENES_PER_MOTOR`. -/
def crossover (k : ℕ) (parent1 parent2 : Genome) : Genome × Genome :=
  let crossover_point := k * GENES_PER_MOTOR
  (parent1.take crossover_point ++ parent2.drop crossover_point,
   parent2.take crossover_point ++ parent1.drop crossover_point)

/-! ### evolution.py: selection -/

/-- `GeneticAlgorithm._tournament_selection` (evolution.py).  `indices` is the
`random.sample(range(len(population)), min(TOURNAMENT_SIZE, len))` draw.
Python's `max(indices, key=...)` keeps the first element attaining the
maximal key, modelled by a left fold replacing only on a strict increase. -/
def tournamentSelection (population : List Genome) (fitness_scores : List ℚ)
    (indices : List ℕ) : Genome :=
  let key := fun i => fitness_scores.getD i 0
  let winner_idx := indices.foldl (fun m x => if key m < key x then x else m)
    (indices.headD 0)
  population.getD winner_idx []

/-- Cumulative-sum scan of `GeneticAlgorithm._roulette_selection`'s loop:
walk the adjusted weights accumulating `current`; return `population[i]` at
the first index where `current ≥ pick`, else `population[-1]`. -/
def rouletteScan (population : List Genome) (pick : ℚ) :
    List ℚ → ℕ → ℚ → Genome
  | [], _, _ => population.getLastD []
  | w :: ws, i, current =>
      if pick ≤ current + w then population.getD i []
      else rouletteScan population pick ws (i + 1) (current + w)

/-- `GeneticAlgorithm._roulette_selection` (evolution.py).  `pick` is the
`random.uniform(0, total_fitness)` draw and `choiceIdx` the index that
`random.choice` would pick in the zero-total fallback branch. -/
def rouletteSelection (population : List Genome) (fitness_scores : List ℚ)
    (pick : ℚ) (choiceIdx : ℕ) : Genome :=
  let min_fitness := fitness_scores.foldl min (fitness_scores.headD 0)
  let adjusted_fitness := fitness_scores.map (fun f => f - min_fitness + 1)
  let total_fitness := adjusted_fitness.sum
  if total_fitness = 0 then population.getD choiceIdx []
  else rouletteScan population pick adjusted_fitness 0 0

/-! ### evolution.py: sorting by fitness

`evolve` sorts `zip(fitness_scores, population)` with Python's stable
`sorted(..., key=lambda x: x[0], reverse=True)`: descending first components,
entries with equal keys keeping their original relative order.  That is
modelled by a stable descending insertion sort. -/

/-- Insert `a` into a descending-sorted list, before the first element whose
key is `≤` `a`'s key (so an element inserted later, i.e. earlier in the
original list, goes before equal keys: stability). -/
def insertDesc (a : ℚ × Genome) : List (ℚ × Genome) → List (ℚ × Genome)
  | [] => [a]
  | b :: l => if b.1 ≤ a.1 then a :: b :: l else b :: insertDesc a l

/-- Stable descending sort on the fitness key (model of Python `sorted` with
`key=lambda x: x[0], reverse=True`). -/
def sortDesc : List (ℚ × Genome) → List (ℚ × Genome)
  | [] => []
  | a :: l => insertDesc a (sortDesc l)

/-! ### evolution.py: evolve -/

/-- The random draws consumed by one iteration of `evolve`'s child-producing
loop: tournament sample lists (or roulette picks) for the two parents, the
crossover coin, the crossover cut draw, and the two children's mutation
draws. -/
structure StepRand where
  sel1 : List ℕ
  sel2 : List ℕ
  pick1 : ℚ
  choice1 : ℕ
  pick2 : ℚ
  choice2 : ℕ
  crossCoin : ℚ
  cutK : ℕ
  rand1 : ℕ → ℚ
  gauss1 : ℕ → ℚ
  rand2 : ℕ → ℚ
  gauss2 : ℕ → ℚ

/-- `GeneticAlgorithm._select_parent` (evolution.py): dispatch on the
configured selection method. -/
def selectParent (population : List Genome) (fitness_scores : List ℚ)
    (r : List ℕ) (pick : ℚ) (choiceIdx : ℕ) : Genome :=
  if SELECTION_METHOD = "tournament" then
    tournamentSelection population fitness_scores r
  else
    rouletteSelection population fitness_scores pick choiceIdx

/-- One iteration of `evolve`'s while-loop body: select two parents from the
sorted population, cross them over with probability `CROSSOVER_RATE`, and
mutate both children. -/
def genChildren (rate strength : ℚ) (spop : List Genome) (sfit : List ℚ)
    (r : StepRand) : Genome × Genome :=
  let parent1 := selectParent spop sfit r.sel1 r.pick1 r.choice1
  let parent2 := selectParent spop sfit r.sel2 r.pick2 r.choice2
  let c := if r.crossCoin < CROSSOVER_RATE then crossover r.cutK parent1 parent2
           else (parent1, parent2)
  (mutate rate strength c.1 r.rand1 r.gauss1,
   mutate rate strength c.2 r.rand2 r.gauss2)

/-- The tail of `evolve`'s while-loop: append `child1`, and `child2` only if
another slot remains, until `need` slots are filled. -/
def fillChildren (gen : ℕ → Genome × Genome) : ℕ → ℕ → List Genome
  | _, 0 => []
  | j, 1 => [(gen j).1]
  | j, n + 2 => (gen j).1 :: (gen j).2 :: fillChildren gen (j + 1) n

/-- `GeneticAlgorithm.evolve` (evolution.py), the next-population computation:
sort by fitness descending (stable), copy the top
`max(1, int(populationSize * eliteRatio))` genomes, then fill the remaining
slots with selected/crossed/mutated children.  `populationSize` and
`eliteRatio` are the configured `POPULATION_SIZE` and `ELITE_RATIO`;
`rate`/`strength` are the engine's current adaptive mutation parameters; `rng`
supplies the loop's random draws. -/
def evolve (populationSize : ℕ) (eliteRatio rate strength : ℚ)
    (population : List Genome) (fitness_scores : List ℚ)
    (rng : ℕ → StepRand) : List Genome :=
  let sorted_pairs := sortDesc (fitness_scores.zip population)
  let sorted_population := sorted_pairs.map Prod.snd
  let sorted_fitness := sorted_pairs.map Prod.fst
  let elite_count := max 1 (⌊(populationSize : ℚ) * eliteRatio⌋.toNat)
  let elites := (List.range elite_count).map
    (fun i => sorted_population.getD i [])
  elites ++ fillChildren
    (fun j => genChildren rate strength sorted_population sorted_fitness (rng j))
    0 (populationSize - elite_count)

/-! ### creature.py: creature state

The creature's Python object state together with the current physics readings
of the bodies it owns (torso pose and foot x-positions — maintained by the
external physics collaborator between frames, read by `update`/`check_death`).
-/

structure Creature where
  genes : Genome
  start_x : ℚ
  start_y : ℚ
  creature_id : ℕ
  is_alive : Bool
  time_alive : ℚ
  fitness : ℚ
  fell_down : Bool
  height_sum : ℚ
  stability_sum : ℚ
  update_count : ℕ
  upright_distance : ℚ
  last_x : ℚ
  energy_used : ℚ
  upright_frames : ℕ
  step_count : ℕ
  last_sign_front : Option ℤ
  last_sign_back : Option ℤ
  torso_x : ℚ
  torso_y : ℚ
  torso_angle : ℚ
  torso_angular_velocity : ℚ
  front_left_foot_x : ℚ
  front_right_foot_x : ℚ
  back_left_foot_x : ℚ
  back_right_foot_x : ℚ
  deriving DecidableEq, Repr

/-- `Creature.__init__` (creature.py).  Stores the genome (or the random one
drawn when `genes is None`; that draw is passed in as `randGenes`), zeroes the
accumulators, and builds the quadruped body (the configured
`CREATURE_TYPE`): the torso centre starts at
`(start_x, start_y + TORSO_HEIGHT/2)` with zero tilt, and each foot is
created directly below its hip.  No validation of the genome is performed. -/
def creatureInit (start_x start_y : ℚ) (genesOpt : Option Genome)
    (randGenes : Genome) (creature_id : ℕ) : Creature :=
  let offset_x := TORSO_WIDTH / 2 - 10
  { genes := genesOpt.getD randGenes
    start_x := start_x
    start_y := start_y
    creature_id := creature_id
    is_alive := true
    time_alive := 0
    fitness := 0
    fell_down := false
    height_sum := 0
    stability_sum := 0
    update_count := 0
    upright_distance := 0
    last_x := start_x
    energy_used := 0
    upright_frames := 0
    step_count := 0
    last_sign_front := none
    last_sign_back := none
    torso_x := start_x
    torso_y := start_y + TORSO_HEIGHT / 2
    torso_angle := 0
    torso_angular_velocity := 0
    front_left_foot_x := start_x + offset_x - QUADRUPED_LEG_X_OFFSET
    front_right_foot_x := start_x + offset_x + QUADRUPED_LEG_X_OFFSET
    back_left_foot_x := start_x - offset_x - QUADRUPED_LEG_X_OFFSET
    back_right_foot_x := start_x - offset_x + QUADRUPED_LEG_X_OFFSET }

/-- `Creature._is_upright` (creature.py). -/
def isUpright (st : Creature) : Bool :=
  decide (UPRIGHT_HEIGHT_THRESHOLD < st.torso_y) &&
  decide (|st.torso_angle| < UPRIGHT_ANGLE_THRESHOLD)

/-- `Creature._calculate_reflex_correction` (creature.py): returns the
`(hip_correction, knee_correction)` pair. -/
def reflexCorrection (st : Creature) : ℚ × ℚ :=
  if REFLEX_ENABLED = false then (0, 0)
  else
    let hip0 := if REFLEX_BALANCE_THRESHOLD < |st.torso_angle| then
        -st.torso_angle * REFLEX_BALANCE_GAIN else 0
    let knee := if REFLEX_BALANCE_THRESHOLD < |st.torso_angle| ∧
        CREATURE_TYPE = "BIPED" then
        -st.torso_angle * REFLEX_BALANCE_GAIN * (3/10) else 0
    (hip0 - st.torso_angular_velocity * REFLEX_VELOCITY_GAIN, knee)

/-- The per-motor command loop of `Creature.update` (creature.py): the list of
target angular rates written to the motors this frame.  `cosF` and `piV`
model `math.cos` and `math.pi`. -/
def motorCommands (cosF : ℚ → ℚ) (piV : ℚ) (sharedFreq : Bool)
    (genes : Genome) (current_time hip_correction knee_correction : ℚ) :
    List ℚ :=
  let shared_freq := if sharedFreq then genes.getD 1 0 else 0
  (List.range MOTOR_COUNT).map (fun i =>
    let gene_base := i * GENES_PER_MOTOR
    let amplitude := genes.getD gene_base 0
    let frequency := if sharedFreq then shared_freq
                     else genes.getD (gene_base + 1) 0
    let phase := genes.getD (gene_base + 2) 0
    let target_rate := amplitude * frequency *
      cosF (frequency * current_time * 2 * piV + phase)
    let is_hip : Bool :=
      if CREATURE_TYPE = "QUADRUPED" then decide (i % 2 = 0)
      else decide (i = 0 ∨ i = 2)
    let target_rate := target_rate +
      (if is_hip then hip_correction else knee_correction)
    target_rate * 3)

/-- One foot pair of `Creature._update_step_counter` (creature.py): given the
pair's current horizontal offset, its cached last sign and the running step
count, return the new cached sign and step count. -/
def stepPairUpdate (dx : ℚ) (is_upright : Bool) (leg_delta : ℚ)
    (last : Option ℤ) (count : ℕ) : Option ℤ × ℕ :=
  if |leg_delta| < STEP_MIN_LEG_DELTA then (last, count)
  else
    let sign : ℤ := if 0 < leg_delta then 1 else -1
    match last with
    | none => (some sign, count)
    | some s =>
        (some sign,
         if s ≠ sign ∧ is_upright = true ∧ 0 < dx then count + 1 else count)

/-- `Creature._calculate_fitness` (creature.py): the scalar written to
`self.fitness`. -/
def calcFitness (st : Creature) : ℚ :=
  let distance_score := st.upright_distance * FITNESS_DISTANCE_WEIGHT
  let upright_score := (st.upright_frames : ℚ) * (1/10) * FITNESS_UPRIGHT_WEIGHT
  let step_score := (st.step_count : ℚ) * FITNESS_STEP_REWARD
  let fall_penalty := if st.fell_down then FITNESS_FALL_PENALTY else 0
  let energy_penalty :=
    if 0 < FITNESS_ENERGY_PENALTY ∧ 0 < st.update_count then
      (st.energy_used / (st.update_count : ℚ)) * FITNESS_ENERGY_PENALTY
    else 0
  let fitness :=
    distance_score + upright_score + step_score - fall_penalty - energy_penalty
  if fitness < 0 then 0 else fitness

/-- `Creature.update` (creature.py).  Returns the new creature state and the
list of motor commands issued this frame (empty when dead: the early return
issues no commands and changes nothing). -/
def update (cosF : ℚ → ℚ) (piV : ℚ) (sharedFreq : Bool) (st : Creature)
    (dt current_time : ℚ) : Creature × List ℚ :=
  if st.is_alive = false then (st, [])
  else
    let rc := reflexCorrection st
    let rates := motorCommands cosF piV sharedFreq st.genes current_time rc.1 rc.2
    let stability := max 0 (1 - |st.torso_angle| / (piV / 2))
    let dx := st.torso_x - st.last_x
    let is_up := isUpright st
    let front := stepPairUpdate dx is_up
      (st.front_right_foot_x - st.front_left_foot_x)
      st.last_sign_front st.step_count
    let back := stepPairUpdate dx is_up
      (st.back_right_foot_x - st.back_left_foot_x)
      st.last_sign_back front.2
    let st' := { st with
      time_alive := st.time_alive + dt
      update_count := st.update_count + 1
      energy_used := st.energy_used + (rates.map (fun r => |r|)).sum
      height_sum := st.height_sum + st.torso_y
      stability_sum := st.stability_sum + stability
      upright_frames := st.upright_frames + (if is_up then 1 else 0)
      upright_distance :=
        st.upright_distance + (if is_up = true ∧ 0 < dx then dx else 0)
      last_sign_front := front.1
      last_sign_back := back.1
      step_count := back.2
      last_x := st.torso_x }
    ({ st' with fitness := calcFitness st' }, rates)

/-- `Creature.check_death` (creature.py).  Returns the new creature state and
the boolean result; on death the appropriate flags are set and the fitness is
recomputed once, after the flags are set. -/
def checkDeath (st : Creature) (ground_y : ℚ) : Creature × Bool :=
  if st.is_alive = false then (st, true)
  else if SIMULATION_TIME ≤ st.time_alive then
    let st' := { st with is_alive := false }
    ({ st' with fitness := calcFitness st' }, true)
  else if TORSO_TOUCH_GROUND_DEATH = true ∧
      st.torso_y - TORSO_HEIGHT / 2 ≤ ground_y + 5 then
    let st' := { st with is_alive := false, fell_down := true }
    ({ st' with fitness := calcFitness st' }, true)
  else if TORSO_ANGLE_DEATH_THRESHOLD < |st.torso_angle| then
    let st' := { st with is_alive := false, fell_down := true }
    ({ st' with fitness := calcFitness st' }, true)
  else if st.torso_y < TORSO_HEIGHT_DEATH_THRESHOLD then
    let st' := { st with is_alive := false, fell_down := true }
    ({ st' with fitness := calcFitness st' }, true)
  else (st, false)

/-! ### evolution.py: diversity metric

`_calculate_diversity` takes a square root (`variance ** 0.5`), so it is
modelled over `ℝ`. -/

/-- The body of `_calculate_diversity`'s per-gene-position loop (evolution.py):
the population standard deviation of gene position `gene_idx` across the
population, normalised by the configured range of that gene type. -/
noncomputable def normalizedStd (population : List (List ℝ)) (gene_idx : ℕ) :
    ℝ :=
  let gene_values := population.map (fun individual => individual.getD gene_idx 0)
  let n : ℝ := (gene_values.length : ℝ)
  let mean := gene_values.sum / n
  let variance := (gene_values.map (fun v => (v - mean) ^ 2)).sum / n
  let std_dev := Real.sqrt variance
  let gene_range : ℝ :=
    if gene_idx % GENES_PER_MOTOR = 0 then
      ((AMPLITUDE_MAX - AMPLITUDE_MIN : ℚ) : ℝ)
    else if gene_idx % GENES_PER_MOTOR = 1 then
      ((FREQUENCY_MAX - FREQUENCY_MIN : ℚ) : ℝ)
    else ((PHASE_MAX - PHASE_MIN : ℚ) : ℝ)
  if 0 < gene_range then std_dev / gene_range else 0

/-- `GeneticAlgorithm._calculate_diversity` (evolution.py). -/
noncomputable def calculateDiversity (population : List (List ℝ)) : ℝ :=
  if population.length < 2 then 1
  else
    let gene_count := (population.headD []).length
    let total_variance :=
      ((List.range gene_count).map (normalizedStd population)).sum
    min 1 (total_variance / (gene_count : ℝ))

/-! ## Helper lemmas -/

theorem pymod_eq_mul_fract (x m : ℚ) (hm : m ≠ 0) :
    pymod x m = m * Int.fract (x / m) := by
  rw [← Int.self_sub_floor (x / m)]
  unfold pymod
  field_simp

theorem pymod_nonneg (x m : ℚ) (hm : 0 < m) : 0 ≤ pymod x m := by
  rw [pymod_eq_mul_fract x m hm.ne']
  exact mul_nonneg hm.le (Int.fract_nonneg _)

theorem pymod_lt (x m : ℚ) (hm : 0 < m) : pymod x m < m := by
  rw [pymod_eq_mul_fract x m hm.ne']
  calc m * Int.fract (x / m) < m * 1 :=
        (mul_lt_mul_left hm).mpr (Int.fract_lt_one _)
    _ = m := mul_one m

/-! ## C2: mutation keeps genes in their legal ranges -/

/-- The legal-range invariant on a genome: amplitude genes (position ≡ 0
mod 3) in `[AMPLITUDE_MIN, AMPLITUDE_MAX]`, frequency genes (≡ 1) in
`[FREQUENCY_MIN, FREQUENCY_MAX]`, phase genes (≡ 2) in `[0, PHASE_MAX)`. -/
def genesInRange (genes : Genome) : Prop :=
  ∀ i, i < genes.length →
    (i % GENES_PER_MOTOR = 0 →
      AMPLITUDE_MIN ≤ genes.getD i 0 ∧ genes.getD i 0 ≤ AMPLITUDE_MAX) ∧
    (i % GENES_PER_MOTOR = 1 →
      FREQUENCY_MIN ≤ genes.getD i 0 ∧ genes.getD i 0 ≤ FREQUENCY_MAX) ∧
    (i % GENES_PER_MOTOR = 2 →
      PHASE_MIN ≤ genes.getD i 0 ∧ genes.getD i 0 < PHASE_MAX)

/-- One round of `_mutate`'s random draws. -/
structure MutStep where
  rate : ℚ
  strength : ℚ
  rand : ℕ → ℚ
  gauss : ℕ → ℚ

/-- A sequence of successive `_mutate` calls. -/
def mutateMany (genes : Genome) (steps : List MutStep) : Genome :=
  steps.foldl (fun g s => mutate s.rate s.strength g s.rand s.gauss) genes

theorem mutate_length (rate strength : ℚ) (genes : Genome) (rand gauss : ℕ → ℚ) :
    (mutate rate strength genes rand gauss).length = genes.length := by
  simp [mutate]

theorem mutate_getD (rate strength : ℚ) (genes : Genome) (rand gauss : ℕ → ℚ)
    (i : ℕ) (hi : i < genes.length) :
    (mutate rate strength genes rand gauss).getD i 0 =
      (if rand i < rate then
        if i % GENES_PER_MOTOR = 0 then
          max AMPLITUDE_MIN (min AMPLITUDE_MAX
            (genes.getD i 0 + strength * (AMPLITUDE_MAX - AMPLITUDE_MIN) * gauss i))
        else if i % GENES_PER_MOTOR = 1 then
          max FREQUENCY_MIN (min FREQUENCY_MAX
            (genes.getD i 0 + strength * (FREQUENCY_MAX - FREQUENCY_MIN) * gauss i))
        else
          pymod (genes.getD i 0 + strength * (PHASE_MAX - PHASE_MIN) * gauss i)
            PHASE_MAX
      else genes.getD i 0) := by
  have hlen : i < (mutate rate strength genes rand gauss).length := by
    rw [mutate_length]; exact hi
  rw [List.getD_eq_getElem _ _ hlen]
  simp [mutate, hi]

theorem mutate_preserves_range (rate strength : ℚ) (genes : Genome)
    (rand gauss : ℕ → ℚ) (h : genesInRange genes) :
    genesInRange (mutate rate strength genes rand gauss) := by
  intro i hi
  rw [mutate_length] at hi
  have hbase := h i hi
  rw [mutate_getD rate strength genes rand gauss i hi]
  by_cases hc : rand i < rate
  · simp only [hc, if_true]
    refine ⟨fun h0 => ?_, fun h1 => ?_, fun h2 => ?_⟩
    · simp only [h0, if_true]
      constructor
      · exact le_max_left _ _
      · exact max_le (by norm_num [AMPLITUDE_MIN, AMPLITUDE_MAX]) (min_le_left _ _)
    · have h0 : ¬ i % GENES_PER_MOTOR = 0 := by omega
      simp only [h0, h1, if_false, if_true]
      constructor
      · exact le_max_left _ _
      · exact max_le (by norm_num [FREQUENCY_MIN, FREQUENCY_MAX]) (min_le_left _ _)
    · have h0 : ¬ i % GENES_PER_MOTOR = 0 := by omega
      have h1 : ¬ i % GENES_PER_MOTOR = 1 := by omega
      simp only [h0, h1, if_false]
      have hpos : (0 : ℚ) < PHASE_MAX := by norm_num [PHASE_MAX]
      constructor
      · calc PHASE_MIN = 0 := by norm_num [PHASE_MIN]
          _ ≤ _ := pymod_nonneg _ _ hpos
      · exact pymod_lt _ _ hpos
  · simp only [hc, if_false]
    exact hbase

/-- C2: mutation (and any number of successive mutations, over all possible
random draws) keeps every amplitude gene in
`[AMPLITUDE_MIN, AMPLITUDE_MAX]` (clamped), every frequency gene in
`[FREQUENCY_MIN, FREQUENCY_MAX]` (clamped), and every phase gene in
`[0, PHASE_MAX)` (wrapped modulo the range, never clamped — in particular
when the unwrapped perturbed phase would be negative). -/
theorem claim_C2_mutation_range (genes : Genome) (steps : List MutStep)
    (h : genesInRange genes) : genesInRange (mutateMany genes steps) := by
  induction steps generalizing genes with
  | nil => exact h
  | cons s rest ih =>
      exact ih _ (mutate_preserves_range s.rate s.strength genes s.rand s.gauss h)

/-- Witness for C2 at a concrete genome and a concrete two-round mutation
schedule whose Gaussian draws are large and negative (the unwrapped phase
would be negative). -/
theorem claim_C2_mutation_range_witness :
    genesInRange ([1/2, 1, 3] : Genome) ∧
    genesInRange (mutateMany [1/2, 1, 3]
      [⟨1, 1, fun _ => 0, fun _ => -100⟩, ⟨1, 1, fun _ => 0, fun _ => -7⟩]) := by
  have hin : genesInRange ([1/2, 1, 3] : Genome) := by
    intro i hi
    simp only [List.length_cons, List.length_nil] at hi
    interval_cases i
    · exact ⟨fun _ => by constructor <;>
          norm_num [List.getD_cons_zero, AMPLITUDE_MIN, AMPLITUDE_MAX],
        fun h => absurd h (by norm_num [GENES_PER_MOTOR]),
        fun h => absurd h (by norm_num [GENES_PER_MOTOR])⟩
    · exact ⟨fun h => absurd h (by norm_num [GENES_PER_MOTOR]),
        fun _ => by constructor <;>
          norm_num [List.getD_cons_zero, List.getD_cons_succ,
            FREQUENCY_MIN, FREQUENCY_MAX],
        fun h => absurd h (by norm_num [GENES_PER_MOTOR])⟩
    · exact ⟨fun h => absurd h (by norm_num [GENES_PER_MOTOR]),
        fun h => absurd h (by norm_num [GENES_PER_MOTOR]),
        fun _ => by constructor <;>
          norm_num [List.getD_cons_zero, List.getD_cons_succ,
            PHASE_MIN, PHASE_MAX]⟩
  exact ⟨hin, claim_C2_mutation_range [1/2, 1, 3]
    [⟨1, 1, fun _ => 0, fun _ => -100⟩, ⟨1, 1, fun _ => 0, fun _ => -7⟩] hin⟩

/-! ## C3: crossover cuts on a motor boundary and swaps tails -/

/-- C3: for parents of full genome length and any draw
`k ∈ [1, MOTOR_COUNT-1]` of `random.randint`, the cut point
`k * GENES_PER_MOTOR` is a positive multiple of `GENES_PER_MOTOR` strictly
below the genome length; both children have the genome length; child 1 is
parent 1 before the cut and parent 2 from the cut on, and child 2 is the
complementary swap. -/
theorem claim_C3_crossover (k : ℕ) (p1 p2 : Genome)
    (hk1 : 1 ≤ k) (hk2 : k ≤ MOTOR_COUNT - 1)
    (h1 : p1.length = GENE_COUNT) (h2 : p2.length = GENE_COUNT) :
    GENES_PER_MOTOR ∣ k * GENES_PER_MOTOR ∧
    0 < k * GENES_PER_MOTOR ∧
    k * GENES_PER_MOTOR < GENE_COUNT ∧
    (crossover k p1 p2).1.length = GENE_COUNT ∧
    (crossover k p1 p2).2.length = GENE_COUNT ∧
    (∀ j, j < GENE_COUNT →
      (crossover k p1 p2).1.getD j 0 =
        if j < k * GENES_PER_MOTOR then p1.getD j 0 else p2.getD j 0) ∧
    (∀ j, j < GENE_COUNT →
      (crossover k p1 p2).2.getD j 0 =
        if j < k * GENES_PER_MOTOR then p2.getD j 0 else p1.getD j 0) := by
  have hg : GENES_PER_MOTOR = 3 := rfl
  have hm : MOTOR_COUNT = 8 := rfl
  have hgc : GENE_COUNT = 24 := rfl
  have hcut : k * GENES_PER_MOTOR ≤ 21 := by
    rw [hg]; rw [hm] at hk2; omega
  have key : ∀ (c : ℕ) (a b : Genome), c ≤ 21 → a.length = 24 → b.length = 24 →
      (a.take c ++ b.drop c).length = 24 ∧
      (∀ j, j < 24 →
        (a.take c ++ b.drop c).getD j 0 =
          if j < c then a.getD j 0 else b.getD j 0) := by
    intro c a b hc ha hb
    have htake : (a.take c).length = c := by
      rw [List.length_take, ha]; omega
    constructor
    · rw [List.length_append, htake, List.length_drop, hb]; omega
    · intro j hj
      by_cases hjc : j < c
      · rw [List.getD_append _ _ _ _ (by rw [htake]; omega)]
        rw [List.getD_eq_getElem _ _ (by rw [htake]; omega),
          List.getD_eq_getElem _ _ (show j < a.length by omega)]
        simp [hjc, List.getElem_take]
      · rw [List.getD_append_right _ _ _ _ (by rw [htake]; omega), htake]
        have hjb : j < b.length := by omega
        have hdroplen : j - c < (b.drop c).length := by
          rw [List.length_drop, hb]; omega
        rw [List.getD_eq_getElem _ _ hdroplen, List.getD_eq_getElem _ _ hjb]
        simp only [List.getElem_drop, hjc, if_false]
        congr 1
        omega
  obtain ⟨hl1, hv1⟩ := key (k * GENES_PER_MOTOR) p1 p2 hcut (h1.trans hgc) (h2.trans hgc)
  obtain ⟨hl2, hv2⟩ := key (k * GENES_PER_MOTOR) p2 p1 hcut (h2.trans hgc) (h1.trans hgc)
  exact ⟨dvd_mul_left GENES_PER_MOTOR k, by rw [hg]; omega, by rw [hg, hgc]; omega,
    by rw [hgc]; exact hl1, by rw [hgc]; exact hl2,
    by rw [hgc]; exact hv1, by rw [hgc]; exact hv2⟩

/-- Witness for C3 at `k = 2` and concrete full-length parents. -/
theorem claim_C3_crossover_witness :
    (crossover 2 (List.replicate 24 (1 : ℚ)) (List.replicate 24 (2 : ℚ))).1.length
      = GENE_COUNT ∧
    (crossover 2 (List.replicate 24 (1 : ℚ)) (List.replicate 24 (2 : ℚ))).1.getD 5 0
      = 1 ∧
    (crossover 2 (List.replicate 24 (1 : ℚ)) (List.replicate 24 (2 : ℚ))).1.getD 6 0
      = 2 := by
  have h := claim_C3_crossover 2 (List.replicate 24 (1 : ℚ))
    (List.replicate 24 (2 : ℚ)) (by norm_num) (by norm_num [MOTOR_COUNT])
    (by simp [GENE_COUNT, GENES_PER_MOTOR, MOTOR_COUNT])
    (by simp [GENE_COUNT, GENES_PER_MOTOR, MOTOR_COUNT])
  refine ⟨h.2.2.2.1, ?_, ?_⟩
  · have h5 := h.2.2.2.2.2.1 5 (by norm_num [GENE_COUNT, GENES_PER_MOTOR, MOTOR_COUNT])
    rw [h5, if_pos (by norm_num [GENES_PER_MOTOR])]
    rw [List.getD_eq_getElem _ _ (by simp)]
    simp
  · have h6 := h.2.2.2.2.2.1 6 (by norm_num [GENE_COUNT, GENES_PER_MOTOR, MOTOR_COUNT])
    rw [h6, if_neg (by norm_num [GENES_PER_MOTOR])]
    rw [List.getD_eq_getElem _ _ (by simp)]
    simp

/-! ## C10: roulette selection's fallback branch is unreachable -/

theorem foldl_min_le_init (l : List ℚ) (a : ℚ) : l.foldl min a ≤ a := by
  induction l generalizing a with
  | nil => exact le_refl a
  | cons b t ih => exact le_trans (ih (min a b)) (min_le_left a b)

theorem foldl_min_le_mem (l : List ℚ) (a : ℚ) :
    ∀ x ∈ l, l.foldl min a ≤ x := by
  induction l generalizing a with
  | nil => intro x hx; simp at hx
  | cons b t ih =>
      intro x hx
      rcases List.mem_cons.mp hx with rfl | hx
      · exact le_trans (foldl_min_le_init t (min a x)) (min_le_right a x)
      · exact ih (min a b) x hx

theorem sum_ge_length (l : List ℚ) (h : ∀ x ∈ l, 1 ≤ x) :
    (l.length : ℚ) ≤ l.sum := by
  induction l with
  | nil => simp
  | cons b t ih =>
      have hb := h b (List.mem_cons_self b t)
      have ht := ih (fun x hx => h x (List.mem_cons_of_mem b hx))
      simp only [List.length_cons, List.sum_cons]
      push_cast
      linarith

theorem getLastD_mem (l : List Genome) (d : Genome) (h : l ≠ []) :
    l.getLastD d ∈ l := by
  rw [List.getLastD_eq_getLast?]
  cases hl : l.getLast? with
  | none => exact absurd (List.getLast?_eq_none_iff.mp hl) h
  | some a => simpa using List.mem_of_mem_getLast? hl

theorem rouletteScan_mem (population : List Genome) (pick : ℚ)
    (hpop : population ≠ []) :
    ∀ (ws : List ℚ) (i : ℕ) (cur : ℚ), i + ws.length ≤ population.length →
      rouletteScan population pick ws i cur ∈ population := by
  intro ws
  induction ws with
  | nil =>
      intro i cur _
      exact getLastD_mem population [] hpop
  | cons w t ih =>
      intro i cur hle
      simp only [List.length_cons] at hle
      simp only [rouletteScan]
      split_ifs
      · have hi : i < population.length := by omega
        rw [List.getD_eq_getElem _ _ hi]
        exact List.getElem_mem hi
      · exact ih (i + 1) (cur + w) (by omega)

/-- C10: for a nonempty fitness list, roulette selection's adjusted weights
(`f − min + 1`) are all at least 1, their total is at least the population
size and never zero, so the zero-total uniform-random fallback branch is
unreachable (the result is computed by the cumulative-sum scan), and the
result is always a genome of the population. -/
theorem claim_C10_roulette_selection (population : List Genome)
    (fitness_scores : List ℚ) (pick : ℚ) (choiceIdx : ℕ)
    (hne : fitness_scores ≠ [])
    (hlen : population.length = fitness_scores.length) :
    (∀ w ∈ fitness_scores.map
        (fun f => f - fitness_scores.foldl min (fitness_scores.headD 0) + 1),
      1 ≤ w) ∧
    (fitness_scores.length : ℚ) ≤ (fitness_scores.map
      (fun f => f - fitness_scores.foldl min (fitness_scores.headD 0) + 1)).sum ∧
    (fitness_scores.map
      (fun f => f - fitness_scores.foldl min (fitness_scores.headD 0) + 1)).sum
        ≠ 0 ∧
    rouletteSelection population fitness_scores pick choiceIdx =
      rouletteScan population pick (fitness_scores.map
        (fun f => f - fitness_scores.foldl min (fitness_scores.headD 0) + 1))
        0 0 ∧
    rouletteSelection population fitness_scores pick choiceIdx ∈ population := by
  have h1 : ∀ w ∈ fitness_scores.map
      (fun f => f - fitness_scores.foldl min (fitness_scores.headD 0) + 1),
      1 ≤ w := by
    intro w hw
    obtain ⟨f, hf, rfl⟩ := List.mem_map.mp hw
    have := foldl_min_le_mem fitness_scores (fitness_scores.headD 0) f hf
    linarith
  have h2 : (fitness_scores.length : ℚ) ≤ (fitness_scores.map
      (fun f => f - fitness_scores.foldl min (fitness_scores.headD 0) + 1)).sum := by
    have := sum_ge_length _ h1
    simpa using this
  have hlen1 : 1 ≤ fitness_scores.length := by
    cases fitness_scores with
    | nil => exact absurd rfl hne
    | cons a t => simp
  have h3 : (fitness_scores.map
      (fun f => f - fitness_scores.foldl min (fitness_scores.headD 0) + 1)).sum
        ≠ 0 := by
    have : (1 : ℚ) ≤ (fitness_scores.length : ℚ) := by exact_mod_cast hlen1
    linarith
  have h4 : rouletteSelection population fitness_scores pick choiceIdx =
      rouletteScan population pick (fitness_scores.map
        (fun f => f - fitness_scores.foldl min (fitness_scores.headD 0) + 1))
        0 0 := by
    unfold rouletteSelection
    rw [if_neg h3]
  have hpop : population ≠ [] := by
    intro hnil
    rw [hnil] at hlen
    simp at hlen
    rw [← hlen] at hlen1
    omega
  have h5 : rouletteSelection population fitness_scores pick choiceIdx
      ∈ population := by
    rw [h4]
    exact rouletteScan_mem population pick hpop _ 0 0 (by simp [hlen])
  exact ⟨h1, h2, h3, h4, h5⟩

/-- Witness for C10 at a concrete two-genome population. -/
theorem claim_C10_roulette_selection_witness :
    rouletteSelection [[1], [2]] [0, 5] 3 0 ∈ ([[1], [2]] : List Genome) :=
  (claim_C10_roulette_selection [[1], [2]] [0, 5] 3 0 (by simp)
    (by simp)).2.2.2.2

/-! ## C1: elitism in evolve

Properties of the stable descending sort: it is a permutation of its input,
its keys are descending, and entries with equal keys keep their original
relative order (stability, phrased as preservation of every equal-key
filter). -/

theorem insertDesc_perm (a : ℚ × Genome) (l : List (ℚ × Genome)) :
    List.Perm (insertDesc a l) (a :: l) := by
  induction l with
  | nil => exact List.Perm.refl _
  | cons b t ih =>
      simp only [insertDesc]
      split_ifs
      · exact List.Perm.refl _
      · exact (ih.cons b).trans (List.Perm.swap a b t)

theorem sortDesc_perm (l : List (ℚ × Genome)) : List.Perm (sortDesc l) l := by
  induction l with
  | nil => exact List.Perm.refl _
  | cons a t ih => exact (insertDesc_perm a (sortDesc t)).trans (ih.cons a)

theorem insertDesc_pairwise (a : ℚ × Genome) (l : List (ℚ × Genome))
    (h : l.Pairwise (fun x y => y.1 ≤ x.1)) :
    (insertDesc a l).Pairwise (fun x y => y.1 ≤ x.1) := by
  induction l with
  | nil => simp [insertDesc]
  | cons b t ih =>
      obtain ⟨hb, ht⟩ := List.pairwise_cons.mp h
      simp only [insertDesc]
      split_ifs with hba
      · refine List.Pairwise.cons ?_ h
        intro x hx
        rcases List.mem_cons.mp hx with rfl | hx
        · exact hba
        · exact le_trans (hb x hx) hba
      · refine List.Pairwise.cons ?_ (ih ht)
        intro x hx
        rcases List.mem_cons.mp ((insertDesc_perm a t).mem_iff.mp hx)
          with rfl | hx
        · exact le_of_not_le hba
        · exact hb x hx

theorem sortDesc_pairwise (l : List (ℚ × Genome)) :
    (sortDesc l).Pairwise (fun x y => y.1 ≤ x.1) := by
  induction l with
  | nil => simp [sortDesc]
  | cons a t ih => exact insertDesc_pairwise a _ ih

theorem insertDesc_filter (q : ℚ) (a : ℚ × Genome) (l : List (ℚ × Genome)) :
    (insertDesc a l).filter (fun p => decide (p.1 = q)) =
      if a.1 = q then a :: l.filter (fun p => decide (p.1 = q))
      else l.filter (fun p => decide (p.1 = q)) := by
  induction l with
  | nil =>
      by_cases hq : a.1 = q <;> simp [insertDesc, List.filter, hq]
  | cons b t ih =>
      by_cases hba : b.1 ≤ a.1
      · simp only [insertDesc, if_pos hba, List.filter_cons]
        by_cases hq : a.1 = q <;> simp [hq]
      · have hlt : a.1 < b.1 := lt_of_not_le hba
        simp only [insertDesc, if_neg hba, List.filter_cons, ih]
        by_cases hq : a.1 = q
        · have hbq : ¬ b.1 = q := by
            rw [← hq]; exact (ne_of_gt hlt)
          simp [hq, hbq]
        · by_cases hbq : b.1 = q <;> simp [hq, hbq]

theorem sortDesc_filter (q : ℚ) (l : List (ℚ × Genome)) :
    (sortDesc l).filter (fun p => decide (p.1 = q)) =
      l.filter (fun p => decide (p.1 = q)) := by
  induction l with
  | nil => rfl
  | cons a t ih =>
      simp only [sortDesc, insertDesc_filter, List.filter_cons, ih]
      split_ifs <;> simp_all

theorem fillChildren_length (gen : ℕ → Genome × Genome) :
    ∀ n j, (fillChildren gen j n).length = n := by
  intro n
  induction n using Nat.strong_induction_on with
  | _ n ih =>
      intro j
      match n with
      | 0 => rfl
      | 1 => rfl
      | m + 2 =>
          simp only [fillChildren, List.length_cons]
          rw [ih m (by omega)]

theorem rangeMap_getD (l : List Genome) (d : Genome) :
    ∀ k, k ≤ l.length →
      (List.range k).map (fun i => l.getD i d) = l.take k := by
  intro k
  induction k with
  | zero => simp
  | succ m ih =>
      intro hk
      rw [List.range_succ, List.map_append, ih (by omega)]
      simp only [List.map_cons, List.map_nil]
      rw [List.take_succ]
      congr 1
      rw [List.getD_eq_getElem _ _ (show m < l.length by omega)]
      simp [List.getElem?_eq_getElem (show m < l.length by omega)]

/-- C1: for a population and parallel fitness list of the configured
population size `N ≥ 1` and an elite ratio in `[0, 1]`, `evolve` returns
exactly `N` genomes whose first `max 1 ⌊N·eliteRatio⌋` entries are the
genomes of the stable descending sort of the input — i.e. exact copies of
the highest-fitness input genomes in descending fitness order, ties broken
by original input order (the sort is a permutation with descending keys
preserving every equal-key filter). -/
theorem claim_C1_evolve_elitism (populationSize : ℕ)
    (eliteRatio rate strength : ℚ) (population : List Genome)
    (fitness_scores : List ℚ) (rng : ℕ → StepRand)
    (hN : 1 ≤ populationSize)
    (hpop : population.length = populationSize)
    (hfit : fitness_scores.length = populationSize)
    (hr0 : 0 ≤ eliteRatio) (hr1 : eliteRatio ≤ 1) :
    (evolve populationSize eliteRatio rate strength population fitness_scores
        rng).length = populationSize ∧
    (evolve populationSize eliteRatio rate strength population fitness_scores
        rng).take (max 1 (⌊(populationSize : ℚ) * eliteRatio⌋.toNat)) =
      ((sortDesc (fitness_scores.zip population)).map Prod.snd).take
        (max 1 (⌊(populationSize : ℚ) * eliteRatio⌋.toNat)) ∧
    List.Perm (sortDesc (fitness_scores.zip population))
      (fitness_scores.zip population) ∧
    (sortDesc (fitness_scores.zip population)).Pairwise
      (fun x y => y.1 ≤ x.1) ∧
    ∀ q : ℚ,
      (sortDesc (fitness_scores.zip population)).filter
          (fun p => decide (p.1 = q)) =
        (fitness_scores.zip population).filter (fun p => decide (p.1 = q)) := by
  have hzip : (fitness_scores.zip population).length = populationSize := by
    rw [List.length_zip, hpop, hfit, Nat.min_self]
  have hslen : (sortDesc (fitness_scores.zip population)).length
      = populationSize := by
    rw [(sortDesc_perm _).length_eq, hzip]
  have hfloor : ⌊(populationSize : ℚ) * eliteRatio⌋.toNat ≤ populationSize := by
    have hle : (populationSize : ℚ) * eliteRatio ≤ (populationSize : ℚ) := by
      calc (populationSize : ℚ) * eliteRatio ≤ (populationSize : ℚ) * 1 :=
            mul_le_mul_of_nonneg_left hr1 (by positivity)
        _ = (populationSize : ℚ) := mul_one _
    have := Int.floor_le_floor hle
    rw [Int.floor_natCast] at this
    omega
  have hec : max 1 (⌊(populationSize : ℚ) * eliteRatio⌋.toNat)
      ≤ populationSize := by omega
  have hmaplen : ((sortDesc (fitness_scores.zip population)).map
      Prod.snd).length = populationSize := by
    rw [List.length_map, hslen]
  have helites : (List.range
        (max 1 (⌊(populationSize : ℚ) * eliteRatio⌋.toNat))).map
      (fun i => ((sortDesc (fitness_scores.zip population)).map
        Prod.snd).getD i []) =
      ((sortDesc (fitness_scores.zip population)).map Prod.snd).take
        (max 1 (⌊(populationSize : ℚ) * eliteRatio⌋.toNat)) :=
    rangeMap_getD _ [] _ (by rw [hmaplen]; exact hec)
  refine ⟨?_, ?_, sortDesc_perm _, sortDesc_pairwise _,
    fun q => sortDesc_filter q _⟩
  · simp only [evolve, List.length_append, List.length_map,
      List.length_range, fillChildren_length]
    omega
  · simp only [evolve, helites]
    rw [List.take_left' (by rw [List.length_take, hmaplen]; omega)]

/-- Witness for C1 at `N = 10`, `eliteRatio = 1/5` (the spec's end-to-end
scenario: two elites). -/
theorem claim_C1_evolve_elitism_witness :
    (evolve 10 (1/5) 0 0
        [[1], [2], [3], [4], [5], [6], [7], [8], [9], [10]]
        [1, 2, 3, 4, 5, 6, 7, 8, 9, 10]
        (fun _ => ⟨[], [], 0, 0, 0, 0, 0, 1, fun _ => 0, fun _ => 0,
          fun _ => 0, fun _ => 0⟩)).length = 10 ∧
    (evolve 10 (1/5) 0 0
        [[1], [2], [3], [4], [5], [6], [7], [8], [9], [10]]
        [1, 2, 3, 4, 5, 6, 7, 8, 9, 10]
        (fun _ => ⟨[], [], 0, 0, 0, 0, 0, 1, fun _ => 0, fun _ => 0,
          fun _ => 0, fun _ => 0⟩)).take
        (max 1 (⌊(10 : ℚ) * (1/5)⌋.toNat)) =
      ((sortDesc ([1, 2, 3, 4, 5, 6, 7, 8, 9, 10].zip
        [[1], [2], [3], [4], [5], [6], [7], [8], [9], [10]])).map
          Prod.snd).take (max 1 (⌊(10 : ℚ) * (1/5)⌋.toNat)) := by
  have h := claim_C1_evolve_elitism 10 (1/5) 0 0
    [[1], [2], [3], [4], [5], [6], [7], [8], [9], [10]]
    [1, 2, 3, 4, 5, 6, 7, 8, 9, 10]
    (fun _ => ⟨[], [], 0, 0, 0, 0, 0, 1, fun _ => 0, fun _ => 0,
      fun _ => 0, fun _ => 0⟩)
    (by norm_num) (by simp) (by simp) (by norm_num) (by norm_num)
  exact ⟨h.1, h.2.1⟩

/-! ## C4: genome length is not validated at construction -/

/-- C4 counterexample: constructing a creature with a genome of length 5
(≠ `GENE_COUNT` = 24) does not fail — the constructor is total, stores the
mismatched genome unchanged and starts the creature alive.  This refutes the
claim that a length mismatch is rejected at construction time. -/
theorem claim_C4_counterexample :
    ([1, 1, 1, 1, 1] : Genome).length ≠ GENE_COUNT ∧
    (creatureInit 100 200 (some [1, 1, 1, 1, 1]) [] 0).genes = [1, 1, 1, 1, 1] ∧
    (creatureInit 100 200 (some [1, 1, 1, 1, 1]) [] 0).is_alive = true := by
  refine ⟨by simp [GENE_COUNT, GENES_PER_MOTOR, MOTOR_COUNT], ?_, ?_⟩ <;>
    simp [creatureInit]

/-- C4 (amended): `Creature.__init__` performs no genome-length validation:
a genome whose length differs from `3 × MOTOR_COUNT` is silently accepted —
stored unchanged (never defaulted) with the creature starting alive; the
mismatch surfaces only later (an index error in `update` for a too-short
genome). -/
theorem claim_C4_no_length_validation (sx sy : ℚ) (genes randGenes : Genome)
    (cid : ℕ) (h : genes.length ≠ GENE_COUNT) :
    (creatureInit sx sy (some genes) randGenes cid).genes = genes ∧
    (creatureInit sx sy (some genes) randGenes cid).is_alive = true := by
  simp [creatureInit]

/-- Witness for the amended C4 at a concrete length-7 genome. -/
theorem claim_C4_no_length_validation_witness :
    ([2, 2, 2, 2, 2, 2, 2] : Genome).length ≠ GENE_COUNT ∧
    (creatureInit 0 0 (some [2, 2, 2, 2, 2, 2, 2]) [] 3).genes
      = [2, 2, 2, 2, 2, 2, 2] := by
  have h := claim_C4_no_length_validation 0 0 [2, 2, 2, 2, 2, 2, 2] [] 3
    (by simp [GENE_COUNT, GENES_PER_MOTOR, MOTOR_COUNT])
  exact ⟨by simp [GENE_COUNT, GENES_PER_MOTOR, MOTOR_COUNT], h.1⟩

/-! ## C6: the fitness formula -/

/-- C6: whenever at least one update frame has been counted, the computed
fitness equals
`max 0 (distanceWeight·uprightDistance + uprightWeight·0.1·uprightFrames
+ stepReward·stepCount − fallPenalty·(fell ? 1 : 0)
− energyPenaltyWeight·(energy/frames))`; in particular it is never
negative. -/
theorem claim_C6_fitness_formula (st : Creature) (h : 1 ≤ st.update_count) :
    calcFitness st = max 0
      (FITNESS_DISTANCE_WEIGHT * st.upright_distance
        + FITNESS_UPRIGHT_WEIGHT * ((1 : ℚ)/10) * (st.upright_frames : ℚ)
        + FITNESS_STEP_REWARD * (st.step_count : ℚ)
        - FITNESS_FALL_PENALTY * (if st.fell_down then 1 else 0)
        - FITNESS_ENERGY_PENALTY * (st.energy_used / (st.update_count : ℚ)))
    ∧ 0 ≤ calcFitness st := by
  have hguard : 0 < FITNESS_ENERGY_PENALTY ∧ 0 < st.update_count :=
    ⟨by norm_num [FITNESS_ENERGY_PENALTY], h⟩
  have hmax : ∀ x : ℚ, (if x < 0 then (0 : ℚ) else x) = max 0 x := by
    intro x
    rcases lt_or_le x 0 with hx | hx
    · rw [if_pos hx, max_eq_left hx.le]
    · rw [if_neg (not_lt.mpr hx), max_eq_right hx]
  constructor
  · simp only [calcFitness, if_pos hguard]
    rw [hmax]
    congr 1
    by_cases hf : st.fell_down <;> simp only [hf, if_true, if_false,
      Bool.false_eq_true, Bool.true_eq_false] <;> ring
  · simp only [calcFitness]
    split_ifs <;> linarith

/-- Witness for C6: a fallen creature with two frames and no accumulated
reward has fitness clamped up to 0. -/
theorem claim_C6_fitness_formula_witness :
    1 ≤ ({ creatureInit 0 0 (some []) [] 0 with
      update_count := 2, fell_down := true } : Creature).update_count ∧
    calcFitness { creatureInit 0 0 (some []) [] 0 with
      update_count := 2, fell_down := true } = 0 := by
  have h := (claim_C6_fitness_formula { creatureInit 0 0 (some []) [] 0 with
      update_count := 2, fell_down := true } (by norm_num [creatureInit])).1
  refine ⟨by norm_num [creatureInit], ?_⟩
  rw [h]
  rw [max_eq_left (by norm_num [creatureInit, FITNESS_DISTANCE_WEIGHT,
    FITNESS_UPRIGHT_WEIGHT, FITNESS_STEP_REWARD, FITNESS_FALL_PENALTY,
    FITNESS_ENERGY_PENALTY])]

/-! ## C7: the death conditions -/

/-- C7: a death check on a living creature kills it exactly when (1) the
elapsed time reached the trial duration, (2) the torso's lowest point is at
or below ground level plus the tolerance, (3) the absolute torso tilt
exceeds the angle threshold, or (4) the torso height is below the minimum
height threshold; the returned boolean agrees; and the fell-down flag is set
exactly when death is due to (2), (3) or (4) — it stays false for a
time-limit death. -/
theorem claim_C7_death_conditions (st : Creature) (ground_y : ℚ)
    (halive : st.is_alive = true) (hfell : st.fell_down = false) :
    ((checkDeath st ground_y).1.is_alive = false ↔
      (SIMULATION_TIME ≤ st.time_alive ∨
       st.torso_y - TORSO_HEIGHT / 2 ≤ ground_y + 5 ∨
       TORSO_ANGLE_DEATH_THRESHOLD < |st.torso_angle| ∨
       st.torso_y < TORSO_HEIGHT_DEATH_THRESHOLD)) ∧
    ((checkDeath st ground_y).2 = true ↔
      (SIMULATION_TIME ≤ st.time_alive ∨
       st.torso_y - TORSO_HEIGHT / 2 ≤ ground_y + 5 ∨
       TORSO_ANGLE_DEATH_THRESHOLD < |st.torso_angle| ∨
       st.torso_y < TORSO_HEIGHT_DEATH_THRESHOLD)) ∧
    ((checkDeath st ground_y).1.fell_down = true ↔
      ((st.torso_y - TORSO_HEIGHT / 2 ≤ ground_y + 5 ∨
        TORSO_ANGLE_DEATH_THRESHOLD < |st.torso_angle| ∨
        st.torso_y < TORSO_HEIGHT_DEATH_THRESHOLD) ∧
       ¬ SIMULATION_TIME ≤ st.time_alive)) := by
  simp only [checkDeath, halive, Bool.true_eq_false, if_false,
    TORSO_TOUCH_GROUND_DEATH, true_and]
  split_ifs with h1 h2 h3 h4 <;> simp_all

/-- Witness for C7: a creature built with its torso starting below the
height-death threshold dies on its very first death check with the
fell-down flag set. -/
theorem claim_C7_death_conditions_witness :
    (checkDeath (creatureInit 100 0 (some (List.replicate 24 1)) [] 0) 0).1.is_alive
      = false ∧
    (checkDeath (creatureInit 100 0 (some (List.replicate 24 1)) [] 0) 0).1.fell_down
      = true ∧
    (checkDeath (creatureInit 100 0 (some (List.replicate 24 1)) [] 0) 0).2
      = true := by
  have h := claim_C7_death_conditions
    (creatureInit 100 0 (some (List.replicate 24 1)) [] 0) 0
    (by simp [creatureInit]) (by simp [creatureInit])
  have hcond : SIMULATION_TIME ≤
        (creatureInit 100 0 (some (List.replicate 24 1)) [] 0).time_alive ∨
      (creatureInit 100 0 (some (List.replicate 24 1)) [] 0).torso_y
          - TORSO_HEIGHT / 2 ≤ 0 + 5 ∨
      TORSO_ANGLE_DEATH_THRESHOLD <
        |(creatureInit 100 0 (some (List.replicate 24 1)) [] 0).torso_angle| ∨
      (creatureInit 100 0 (some (List.replicate 24 1)) [] 0).torso_y
          < TORSO_HEIGHT_DEATH_THRESHOLD := by
    right; left
    norm_num [creatureInit, TORSO_HEIGHT]
  have hnot : ¬ SIMULATION_TIME ≤
      (creatureInit 100 0 (some (List.replicate 24 1)) [] 0).time_alive := by
    norm_num [creatureInit, SIMULATION_TIME]
  refine ⟨h.1.mpr hcond, h.2.2.mpr ⟨?_, hnot⟩, h.2.1.mpr hcond⟩
  left
  norm_num [creatureInit, TORSO_HEIGHT]

/-! ## C8: dead creatures stay frozen -/

/-- C8: on a dead creature, `update` is a no-op issuing no motor commands
and `check_death` immediately returns DEAD with the state unchanged — so
fitness and all accumulators never change after death. -/
theorem claim_C8_dead_frozen (cosF : ℚ → ℚ) (piV : ℚ) (sf : Bool)
    (st : Creature) (dt t ground_y : ℚ) (h : st.is_alive = false) :
    update cosF piV sf st dt t = (st, []) ∧
    checkDeath st ground_y = (st, true) := by
  constructor
  · simp [update, h]
  · simp [checkDeath, h]

/-- Witness for C8 at a concrete dead creature. -/
theorem claim_C8_dead_frozen_witness :
    update (fun x => x) 0 true
        { creatureInit 0 0 (some []) [] 0 with is_alive := false } 1 1
      = ({ creatureInit 0 0 (some []) [] 0 with is_alive := false }, []) ∧
    checkDeath { creatureInit 0 0 (some []) [] 0 with is_alive := false } 0
      = ({ creatureInit 0 0 (some []) [] 0 with is_alive := false }, true) :=
  claim_C8_dead_frozen (fun x => x) 0 true
    { creatureInit 0 0 (some []) [] 0 with is_alive := false } 1 1 0 (by simp)

/-! ## C9: shared-frequency mode -/

/-- C9: in shared-frequency mode every motor's command uses motor 0's
frequency gene (index 1) both as the ω factor and inside the cosine
argument `ω·t·2π + φ`, while keeping its own amplitude (index `3·i`) and
phase (index `3·i + 2`); with the mode disabled, motor `i` uses its own
frequency gene at index `3·i + 1`.  The commands issued by `update` on a
living creature are exactly these per-motor values. -/
theorem claim_C9_shared_frequency (cosF : ℚ → ℚ) (piV : ℚ) (genes : Genome)
    (t hip knee dt : ℚ) (st : Creature) (sf : Bool) (i : ℕ)
    (hi : i < MOTOR_COUNT) :
    ((motorCommands cosF piV true genes t hip knee).getD i 0 =
      (genes.getD (3 * i) 0 * genes.getD 1 0 *
        cosF (genes.getD 1 0 * t * 2 * piV + genes.getD (3 * i + 2) 0) +
        (if i % 2 = 0 then hip else knee)) * 3) ∧
    ((motorCommands cosF piV false genes t hip knee).getD i 0 =
      (genes.getD (3 * i) 0 * genes.getD (3 * i + 1) 0 *
        cosF (genes.getD (3 * i + 1) 0 * t * 2 * piV +
          genes.getD (3 * i + 2) 0) +
        (if i % 2 = 0 then hip else knee)) * 3) ∧
    (st.is_alive = true →
      (update cosF piV sf st dt t).2 =
        motorCommands cosF piV sf st.genes t (reflexCorrection st).1
          (reflexCorrection st).2) := by
  have hmul : i * GENES_PER_MOTOR = 3 * i := by
    simp [GENES_PER_MOTOR, Nat.mul_comm]
  refine ⟨?_, ?_, fun halive => ?_⟩
  · rw [List.getD_eq_getElem _ _ (by simp [motorCommands]; exact hi)]
    simp only [motorCommands, List.getElem_map, List.getElem_range, hmul,
      CREATURE_TYPE, if_true, reduceIte]
    by_cases hpar : i % 2 = 0 <;> simp [hpar]
  · rw [List.getD_eq_getElem _ _ (by simp [motorCommands]; exact hi)]
    simp only [motorCommands, List.getElem_map, List.getElem_range, hmul,
      CREATURE_TYPE, if_false, reduceIte]
    by_cases hpar : i % 2 = 0 <;> simp [hpar]
  · simp [update, halive]

/-- Witness for C9 at motor `i = 3` of a concrete genome: shared mode reads
the frequency 2 stored at index 1, independent mode reads the frequency 11
stored at index `3·3 + 1 = 10`. -/
theorem claim_C9_shared_frequency_witness :
    (motorCommands (fun x => x) 0 true
        [1, 2, 3, 4, 5, 6, 7, 8, 9, 10, 11, 12, 13, 14, 15, 16, 17, 18, 19,
          20, 21, 22, 23, 24] 1 5 7).getD 3 0 = 741 ∧
    (motorCommands (fun x => x) 0 false
        [1, 2, 3, 4, 5, 6, 7, 8, 9, 10, 11, 12, 13, 14, 15, 16, 17, 18, 19,
          20, 21, 22, 23, 24] 1 5 7).getD 3 0 = 3981 := by
  have h := claim_C9_shared_frequency (fun x => x) 0
    [1, 2, 3, 4, 5, 6, 7, 8, 9, 10, 11, 12, 13, 14, 15, 16, 17, 18, 19, 20,
      21, 22, 23, 24] 1 5 7 1 (creatureInit 0 0 (some []) [] 0) true 3
    (by norm_num [MOTOR_COUNT])
  constructor
  · rw [h.1]
    norm_num [List.getD_cons_succ, List.getD_cons_zero]
  · rw [h.2.1]
    norm_num [List.getD_cons_succ, List.getD_cons_zero]

/-! ## C5: the diversity metric -/

theorem listRangeMap_sum (f : ℕ → ℝ) :
    ∀ n, ((List.range n).map f).sum = ∑ i in Finset.range n, f i := by
  intro n
  induction n with
  | zero => simp
  | succ m ih =>
      rw [List.range_succ, List.map_append, List.sum_append, ih,
        Finset.sum_range_succ]
      simp

theorem normalizedStd_eq (pop : List (List ℝ)) (i : ℕ) :
    normalizedStd pop i =
      Real.sqrt ((pop.map (fun g => (g.getD i 0 -
          (pop.map (fun g => g.getD i 0)).sum / (pop.length : ℝ)) ^ 2)).sum /
        (pop.length : ℝ)) /
      (if i % 3 = 0 then (7 : ℝ)/10 else if i % 3 = 1 then 2
        else 628318/100000) := by
  have hr0 : ((AMPLITUDE_MAX - AMPLITUDE_MIN : ℚ) : ℝ) = 7/10 := by
    norm_num [AMPLITUDE_MAX, AMPLITUDE_MIN]
  have hr1 : ((FREQUENCY_MAX - FREQUENCY_MIN : ℚ) : ℝ) = 2 := by
    norm_num [FREQUENCY_MAX, FREQUENCY_MIN]
  have hr2 : ((PHASE_MAX - PHASE_MIN : ℚ) : ℝ) = 628318/100000 := by
    norm_num [PHASE_MAX, PHASE_MIN]
  have h3 : GENES_PER_MOTOR = 3 := rfl
  simp only [normalizedStd, List.map_map, List.length_map, Function.comp_def,
    h3, hr0, hr1, hr2]
  by_cases h0 : i % 3 = 0
  · simp only [h0, if_true, reduceIte]
    rw [if_pos (by norm_num)]
  · by_cases h1 : i % 3 = 1
    · simp only [h0, h1, if_true, if_false, reduceIte]
      rw [if_pos (by norm_num)]
    · simp only [h0, h1, if_false, reduceIte]
      rw [if_pos (by norm_num)]

theorem normalizedStd_const (pop : List (List ℝ)) (g0 : List ℝ)
    (hall : ∀ x ∈ pop, x = g0) (hne : pop ≠ []) (i : ℕ) :
    normalizedStd pop i = 0 := by
  rw [normalizedStd_eq]
  have hn : (pop.length : ℝ) ≠ 0 := by
    rw [Nat.cast_ne_zero]
    intro h0
    exact hne (List.length_eq_zero.mp h0)
  have hrep : pop.map (fun g => g.getD i 0) =
      List.replicate pop.length (g0.getD i 0) := by
    have hmem : ∀ b ∈ pop.map (fun g => g.getD i 0), b = g0.getD i 0 := by
      intro b hb
      obtain ⟨g, hg, rfl⟩ := List.mem_map.mp hb
      rw [hall g hg]
    have := List.eq_replicate_of_mem hmem
    simpa using this
  have hmean : (pop.map (fun g => g.getD i 0)).sum / (pop.length : ℝ)
      = g0.getD i 0 := by
    rw [hrep, List.sum_replicate, nsmul_eq_mul]
    field_simp
  have hS : (pop.map (fun g => (g.getD i 0 -
      (pop.map (fun g => g.getD i 0)).sum / (pop.length : ℝ)) ^ 2)).sum = 0 := by
    apply List.sum_eq_zero
    intro x hx
    obtain ⟨g, hg, rfl⟩ := List.mem_map.mp hx
    rw [hall g hg, hmean]
    ring
  rw [hS, zero_div, Real.sqrt_zero, zero_div]

/-- C5: the diversity metric is exactly 1 for a population of size 0 or 1;
for a population of size ≥ 2 with a common positive genome length it equals
the per-gene-position population standard deviation divided by that gene
type's configured range (chosen by position mod 3), averaged over all
positions and capped at 1; and it is 0 when every genome is identical. -/
theorem claim_C5_diversity_metric :
    (∀ pop : List (List ℝ), pop.length ≤ 1 → calculateDiversity pop = 1) ∧
    (∀ (pop : List (List ℝ)) (m : ℕ), 2 ≤ pop.length → 0 < m →
      (∀ g ∈ pop, g.length = m) →
      calculateDiversity pop = min 1 ((∑ i in Finset.range m,
        Real.sqrt ((pop.map (fun g => (g.getD i 0 -
            (pop.map (fun g => g.getD i 0)).sum / (pop.length : ℝ)) ^ 2)).sum /
          (pop.length : ℝ)) /
        (if i % 3 = 0 then (7 : ℝ)/10 else if i % 3 = 1 then 2
          else 628318/100000)) / (m : ℝ))) ∧
    (∀ (pop : List (List ℝ)) (g0 : List ℝ), 2 ≤ pop.length →
      0 < g0.length → (∀ x ∈ pop, x = g0) → calculateDiversity pop = 0) := by
  refine ⟨?_, ?_, ?_⟩
  · intro pop h
    simp only [calculateDiversity]
    rw [if_pos (by omega)]
  · intro pop m h2 hm hlen
    have hgc : (pop.headD []).length = m := by
      cases pop with
      | nil => simp at h2
      | cons x t => exact hlen x (List.mem_cons_self x t)
    simp only [calculateDiversity]
    rw [if_neg (by omega), hgc, listRangeMap_sum]
    congr 2
    exact Finset.sum_congr rfl (fun i _ => normalizedStd_eq pop i)
  · intro pop g0 h2 hg hall
    have hne : pop ≠ [] := by
      intro h
      rw [h] at h2
      simp at h2
    simp only [calculateDiversity]
    rw [if_neg (by omega)]
    have hz : ((List.range (pop.headD []).length).map
        (normalizedStd pop)).sum = 0 := by
      apply List.sum_eq_zero
      intro x hx
      obtain ⟨i, _, rfl⟩ := List.mem_map.mp hx
      exact normalizedStd_const pop g0 hall hne i
    rw [hz, zero_div]
    exact min_eq_right (by norm_num)

/-- Witness for C5: the empty population has diversity 1, and a two-genome
population of identical genomes has diversity 0. -/
theorem claim_C5_diversity_metric_witness :
    calculateDiversity ([] : List (List ℝ)) = 1 ∧
    calculateDiversity [[0], [0]] = 0 := by
  refine ⟨claim_C5_diversity_metric.1 [] (by simp),
    claim_C5_diversity_metric.2.2 [[0], [0]] [0] (by simp) (by simp) ?_⟩
  intro x hx
  rcases List.mem_cons.mp hx with rfl | hx
  · rfl
  · rcases List.mem_cons.mp hx with rfl | hx
    · rfl
    · simp at hx

end Walker
